import Mathlib

/-
Verification of the rust_todo service: an in-memory HTTP CRUD service for
"todo" items.  The repository collection is embedded as an insertion-ordered
list of todos; the repository operations and the handler validation layer are
embedded as pure state-passing functions.  The `handlers` and `repositories`
modules are not present in the source tree (only `main.rs` is), so those
definitions are modelled from the specification; `main.rs` itself provides
the routing, the root handler and the bind address.
-/

namespace TodoApp

/-- A stored todo item: an id and its text (struct `Todo` in `repositories`). -/
structure Todo where
  id : Nat
  text : String
deriving DecidableEq, Repr

/-- Input payload for creation (struct `CreateTodo`). -/
structure CreateTodo where
  text : String
deriving DecidableEq, Repr

/-- Input payload for update (struct `UpdateTodo`): the text is optional. -/
structure UpdateTodo where
  id : Nat
  text : Option String
deriving DecidableEq, Repr

/-- The repository error condition: the addressed id does not exist. -/
inductive RepositoryError where
  | NotFound
deriving DecidableEq, Repr

/-- The in-memory collection, in insertion order. -/
abbrev TodoStore := List Todo

/-- The maximum id stored in the collection, `0` when it is empty. -/
def maxId (s : TodoStore) : Nat :=
  s.foldr (fun t acc => max t.id acc) 0

/-- Modelled from the spec: repository `create` (the `repositories` module is
absent from the source tree).  Allocates the next id as the current maximum
stored id plus one (hence `1` on an empty collection, since `maxId [] = 0`),
stores the new todo and returns a copy of it.  It performs no validation and
always succeeds. -/
def Repo.create (s : TodoStore) (input : CreateTodo) : TodoStore × Todo :=
  let t : Todo := ⟨maxId s + 1, input.text⟩
  (s ++ [t], t)

/-- Modelled from the spec: repository `find` (the `repositories` module is
absent from the source tree).  Returns the stored todo with the given id, or
fails with `NotFound`. -/
def Repo.find (s : TodoStore) (id : Nat) : Except RepositoryError Todo :=
  match s.find? (fun t => t.id == id) with
  | some t => Except.ok t
  | none => Except.error RepositoryError.NotFound

/-- Modelled from the spec: repository `all` (the `repositories` module is
absent from the source tree).  Returns a snapshot copy of every stored todo;
never an error. -/
def Repo.all (s : TodoStore) : List Todo := s

/-- Replace the entry with the given id by `t'`, leaving all others as they
are. -/
def replaceById (s : TodoStore) (id : Nat) (t' : Todo) : TodoStore :=
  s.map fun u => if u.id = id then t' else u

/-- Modelled from the spec: repository `update` (the `repositories` module is
absent from the source tree).  Fails with `NotFound` when the id is absent;
otherwise replaces the text with the input text when present, keeps the
stored text when absent, and returns the updated copy. -/
def Repo.update (s : TodoStore) (id : Nat) (input : UpdateTodo) :
    Except RepositoryError (TodoStore × Todo) :=
  match Repo.find s id with
  | Except.error e => Except.error e
  | Except.ok t =>
    let t' : Todo := ⟨t.id, input.text.getD t.text⟩
    Except.ok (replaceById s id t', t')

/-- Modelled from the spec: repository `delete` (the `repositories` module is
absent from the source tree).  Fails with `NotFound` when the id is absent;
otherwise removes the entry permanently. -/
def Repo.delete (s : TodoStore) (id : Nat) : Except RepositoryError TodoStore :=
  match Repo.find s id with
  | Except.error e => Except.error e
  | Except.ok _ => Except.ok (s.filter fun u => u.id != id)

/-- Modelled from the spec: the text validation rules of the create/update
handlers (the `handlers` module is absent from the source tree).  The
non-emptiness rule runs before the length rule; each violation contributes
its `field: message` entry. -/
def validateText (text : String) : List String :=
  (if text.length = 0 then ["text: Can not be empty"] else []) ++
  (if 100 < text.length then ["text: Over text length"] else [])

/-- Modelled from the spec: the validation error body, byte-for-byte:
`Validation error: [<entries>]` with the entries comma+space separated in
the order the validators ran. -/
def validationMessage (errs : List String) : String :=
  "Validation error: [" ++ String.intercalate ", " errs ++ "]"

/-- The body of an HTTP response, by shape (JSON encoding itself is out of
scope). -/
inductive ResponseBody where
  | text (s : String)
  | todo (t : Todo)
  | todos (l : List Todo)
  | empty
deriving DecidableEq, Repr

/-- An HTTP response: status code and body. -/
structure HttpResponse where
  status : Nat
  body : ResponseBody
deriving DecidableEq, Repr

/-- Modelled from the spec: the `create_todo` handler (the `handlers` module
is absent from the source tree).  Validates the text; on failure answers 400
with the validation message and does not touch the repository; on success
creates the todo and answers 201 with it. -/
def create_todo (s : TodoStore) (input : CreateTodo) : TodoStore × HttpResponse :=
  let errs := validateText input.text
  if errs.isEmpty then
    let r := Repo.create s input
    (r.1, ⟨201, ResponseBody.todo r.2⟩)
  else
    (s, ⟨400, ResponseBody.text (validationMessage errs)⟩)

/-- Modelled from the spec: the validation the `update_todo` handler performs,
applying the two text rules only when a text is present. -/
def validateUpdate (input : UpdateTodo) : List String :=
  match input.text with
  | none => []
  | some t => validateText t

/-- Modelled from the spec: the `update_todo` handler (the `handlers` module
is absent from the source tree).  Validates the optional text; on failure
answers 400 and does not touch the repository; otherwise updates, answering
200 with the updated todo or 404 when the id is absent. -/
def update_todo (s : TodoStore) (id : Nat) (input : UpdateTodo) :
    TodoStore × HttpResponse :=
  let errs := validateUpdate input
  if errs.isEmpty then
    match Repo.update s id input with
    | Except.ok r => (r.1, ⟨200, ResponseBody.todo r.2⟩)
    | Except.error _ => (s, ⟨404, ResponseBody.empty⟩)
  else
    (s, ⟨400, ResponseBody.text (validationMessage errs)⟩)

/-- Modelled from the spec: the `all_todo` handler (the `handlers` module is
absent from the source tree).  Answers 200 with the snapshot of every todo. -/
def all_todo (s : TodoStore) : TodoStore × HttpResponse :=
  (s, ⟨200, ResponseBody.todos (Repo.all s)⟩)

/-- Modelled from the spec: the `find_todo` handler (the `handlers` module is
absent from the source tree). -/
def find_todo (s : TodoStore) (id : Nat) : TodoStore × HttpResponse :=
  match Repo.find s id with
  | Except.ok t => (s, ⟨200, ResponseBody.todo t⟩)
  | Except.error _ => (s, ⟨404, ResponseBody.empty⟩)

/-- Modelled from the spec: the `delete_todo` handler (the `handlers` module
is absent from the source tree).  204 with empty body on success, 404 when
the id is absent. -/
def delete_todo (s : TodoStore) (id : Nat) : TodoStore × HttpResponse :=
  match Repo.delete s id with
  | Except.ok s' => (s', ⟨204, ResponseBody.empty⟩)
  | Except.error _ => (s, ⟨404, ResponseBody.empty⟩)

/-- The `root` handler of `main.rs`: the fixed greeting, answered with
status 200 (the implicit status for a plain string response). -/
def root : HttpResponse := ⟨200, ResponseBody.text "Hello, world!"⟩

/-- The routing of `GET /` in `create_app`: it dispatches to `root`, which
takes no repository extension, so the store passes through untouched. -/
def handleRoot (s : TodoStore) : TodoStore × HttpResponse := (s, root)

/-- A socket address as built in `main`: IPv4 octets and a port. -/
structure SocketAddr where
  ip : List Nat
  port : Nat
deriving DecidableEq, Repr

/-- The bind address constructed in `main.rs`:
`SocketAddr::from(([127, 0, 0, 1], 3000))`. -/
def mainBindAddr : SocketAddr := ⟨[127, 0, 0, 1], 3000⟩

/-- An IPv4 address is a loopback address exactly when its first octet
is 127. -/
def SocketAddr.isLoopback (a : SocketAddr) : Bool := a.ip.headD 0 = 127

/-- Run a sequence of creations, one per text, threading the store. -/
def createN (s : TodoStore) : List String → TodoStore
  | [] => s
  | txt :: rest => createN (Repo.create s ⟨txt⟩).1 rest

theorem maxId_cons (u : Todo) (rest : TodoStore) :
    maxId (u :: rest) = max u.id (maxId rest) := rfl

theorem le_maxId_of_mem {s : TodoStore} {t : Todo} (h : t ∈ s) : t.id ≤ maxId s := by
  induction s with
  | nil => exact absurd h (List.not_mem_nil t)
  | cons u rest ih =>
    rw [maxId_cons]
    rcases List.mem_cons.mp h with h1 | h1
    · exact h1 ▸ Nat.le_max_left _ _
    · exact Nat.le_trans (ih h1) (Nat.le_max_right _ _)

/-- C1: for every repository state, `create` allocates the new todo's id as
the current maximum stored id plus one — hence 1 when the collection is
empty — stores a todo with that id and the given text, and returns a copy of
it; being a total function it always succeeds. -/
theorem create_allocates_next_id (s : TodoStore) (input : CreateTodo) :
    (Repo.create s input).2.id = (if s.isEmpty then 1 else maxId s + 1) ∧
    (Repo.create s input).2.text = input.text ∧
    (Repo.create s input).1 = s ++ [(Repo.create s input).2] := by
  refine ⟨?_, rfl, rfl⟩
  cases s with
  | nil => rfl
  | cons u rest => rfl

/-- C2: for every state, the `create_todo` handler rejects an empty text with
status 400 and the exact body `Validation error: [text: Can not be empty]`,
leaving the store untouched (no todo is created). -/
theorem create_todo_rejects_empty_text (s : TodoStore) :
    create_todo s ⟨""⟩ =
      (s, ⟨400, ResponseBody.text "Validation error: [text: Can not be empty]"⟩) := rfl

/-- C3: for every state and every text longer than 100 characters, the
`create_todo` handler answers 400 with the exact body
`Validation error: [text: Over text length]`, leaving the store untouched. -/
theorem create_todo_rejects_overlong_text (s : TodoStore) (text : String)
    (h : 100 < text.length) :
    create_todo s ⟨text⟩ =
      (s, ⟨400, ResponseBody.text "Validation error: [text: Over text length]"⟩) := by
  have hne : ¬ text.length = 0 := by omega
  have hv : validateText text = ["text: Over text length"] := by
    simp [validateText, hne, h]
  simp [create_todo, hv]
  rfl

theorem create_todo_rejects_overlong_text_witness :
    100 < (String.mk (List.replicate 101 'a')).length ∧
    create_todo [] ⟨String.mk (List.replicate 101 'a')⟩ =
      ([], ⟨400, ResponseBody.text "Validation error: [text: Over text length]"⟩) :=
  ⟨by decide, create_todo_rejects_overlong_text [] _ (by decide)⟩

/-- C4 (counterexample): ids are not monotonically increasing across deletes
and an id is reused: create "a" (id 1), create "b" (id 2), delete 2, then
create "c" is assigned id 2 again — the same id as the deleted todo "b", for
a different todo. -/
theorem id_reuse_counterexample :
    (Repo.create [] ⟨"a"⟩).2 = Todo.mk 1 "a" ∧
    (Repo.create [] ⟨"a"⟩).1 = [Todo.mk 1 "a"] ∧
    (Repo.create [Todo.mk 1 "a"] ⟨"b"⟩).2 = Todo.mk 2 "b" ∧
    (Repo.create [Todo.mk 1 "a"] ⟨"b"⟩).1 = [Todo.mk 1 "a", Todo.mk 2 "b"] ∧
    Repo.delete [Todo.mk 1 "a", Todo.mk 2 "b"] 2 = Except.ok [Todo.mk 1 "a"] ∧
    (Repo.create [Todo.mk 1 "a"] ⟨"c"⟩).2 = Todo.mk 2 "c" ∧
    Todo.mk 2 "c" ≠ Todo.mk 2 "b" :=
  ⟨rfl, rfl, rfl, rfl, rfl, rfl, by decide⟩

/-- C4 (amended): the id assigned by `create` is strictly greater than every
id currently stored, so ids never collide with a live todo and are
monotonically increasing in any delete-free run; after the maximum stored id
is deleted, however, the next create reuses it. -/
theorem create_id_gt_all_stored (s : TodoStore) (input : CreateTodo) (t : Todo)
    (h : t ∈ s) : t.id < (Repo.create s input).2.id := by
  have hle : t.id ≤ maxId s := le_maxId_of_mem h
  simpa [Repo.create] using Nat.lt_succ_of_le hle

theorem create_id_gt_all_stored_witness :
    Todo.mk 1 "a" ∈ ([Todo.mk 1 "a"] : TodoStore) ∧
    (Todo.mk 1 "a").id < (Repo.create [Todo.mk 1 "a"] ⟨"b"⟩).2.id :=
  ⟨List.mem_singleton.mpr rfl,
   create_id_gt_all_stored [Todo.mk 1 "a"] ⟨"b"⟩ (Todo.mk 1 "a")
     (List.mem_singleton.mpr rfl)⟩

theorem find_ok_elim {s : TodoStore} {id : Nat} {t : Todo}
    (h : Repo.find s id = Except.ok t) :
    s.find? (fun u => u.id == id) = some t ∧ t.id = id := by
  unfold Repo.find at h
  cases hf : s.find? (fun u => u.id == id) with
  | none => rw [hf] at h; exact absurd h (by simp)
  | some u =>
    rw [hf] at h
    have hu : u = t := by injection h
    subst hu
    exact ⟨rfl, by simpa using List.find?_some hf⟩

theorem find?_replaceById_self (s : TodoStore) (id : Nat) (t' : Todo)
    (ht' : t'.id = id)
    (h : ∃ t, s.find? (fun u => u.id == id) = some t) :
    (replaceById s id t').find? (fun u => u.id == id) = some t' := by
  induction s with
  | nil => rcases h with ⟨t, ht⟩; simp at ht
  | cons u rest ih =>
    by_cases hu : u.id = id
    · have : replaceById (u :: rest) id t' = t' :: replaceById rest id t' := by
        simp [replaceById, hu]
      rw [this]
      exact List.find?_cons_of_pos _ (by simp [ht'])
    · have hrepl : replaceById (u :: rest) id t' = u :: replaceById rest id t' := by
        simp [replaceById, hu]
      rw [hrepl]
      rw [List.find?_cons_of_neg _ (by simp [hu])]
      apply ih
      rcases h with ⟨t, ht⟩
      rw [List.find?_cons_of_neg _ (by simp [hu])] at ht
      exact ⟨t, ht⟩

theorem find?_replaceById_other (s : TodoStore) (id j : Nat) (t' : Todo)
    (ht' : t'.id = id) (hj : j ≠ id) :
    (replaceById s id t').find? (fun u => u.id == j) =
      s.find? (fun u => u.id == j) := by
  induction s with
  | nil => rfl
  | cons u rest ih =>
    by_cases hu : u.id = id
    · have hrepl : replaceById (u :: rest) id t' = t' :: replaceById rest id t' := by
        simp [replaceById, hu]
      have h1 : (t'.id == j) = false := by
        simp only [beq_eq_false_iff_ne, ne_eq, ht']
        omega
      have h2 : (u.id == j) = false := by
        simp only [beq_eq_false_iff_ne, ne_eq, hu]
        omega
      rw [hrepl]
      simp only [List.find?_cons, h1, h2]
      exact ih
    · have hrepl : replaceById (u :: rest) id t' = u :: replaceById rest id t' := by
        simp [replaceById, hu]
      rw [hrepl]
      simp only [List.find?_cons]
      cases hp : (u.id == j) with
      | true => rfl
      | false => exact ih

/-- C5: for every state and every stored id, `update` replaces only the
addressed entry: the returned copy keeps the id, its text is the input text
when present and the old text when absent, the addressed id now finds the
updated copy, and every other id finds exactly what it found before. -/
theorem update_frame (s : TodoStore) (id : Nat) (input : UpdateTodo) (t : Todo)
    (h : Repo.find s id = Except.ok t) :
    Repo.update s id input =
      Except.ok (replaceById s id ⟨t.id, input.text.getD t.text⟩,
        ⟨t.id, input.text.getD t.text⟩) ∧
    Repo.find (replaceById s id ⟨t.id, input.text.getD t.text⟩) id =
      Except.ok ⟨t.id, input.text.getD t.text⟩ ∧
    ∀ j, j ≠ id →
      Repo.find (replaceById s id ⟨t.id, input.text.getD t.text⟩) j =
        Repo.find s j := by
  obtain ⟨hfind, hid⟩ := find_ok_elim h
  refine ⟨?_, ?_, ?_⟩
  · unfold Repo.update
    rw [h]
  · unfold Repo.find
    rw [find?_replaceById_self s id _ (by simpa using hid) ⟨t, hfind⟩]
  · intro j hj
    unfold Repo.find
    rw [find?_replaceById_other s id j _ (by simpa using hid) hj]

theorem update_frame_witness :
    Repo.find [Todo.mk 1 "a", Todo.mk 2 "b"] 1 = Except.ok (Todo.mk 1 "a") ∧
    Repo.update [Todo.mk 1 "a", Todo.mk 2 "b"] 1 ⟨1, some "z"⟩ =
      Except.ok ([Todo.mk 1 "z", Todo.mk 2 "b"], Todo.mk 1 "z") :=
  ⟨rfl, (update_frame [Todo.mk 1 "a", Todo.mk 2 "b"] 1 ⟨1, some "z"⟩
    (Todo.mk 1 "a") rfl).1⟩

theorem find?_filter_of_imp (l : TodoStore) (p q : Todo → Bool)
    (himp : ∀ u, p u = true → q u = true) :
    (l.filter q).find? p = l.find? p := by
  induction l with
  | nil => rfl
  | cons u rest ih =>
    by_cases hq : q u = true
    · rw [List.filter_cons_of_pos hq]
      simp only [List.find?_cons]
      cases hp : p u with
      | true => rfl
      | false => exact ih
    · have hp : p u = false := by
        cases hpu : p u with
        | true => exact absurd (himp u hpu) hq
        | false => rfl
      rw [List.filter_cons_of_neg (by simpa using hq)]
      rw [ih]
      simp only [List.find?_cons, hp]

/-- C6: for every state storing `id` (and every state not storing it),
`delete id` removes exactly that entry: it answers with the collection
filtered of that id, a subsequent `find id` fails with `NotFound`, every
other id finds exactly what it found before, and on the state where the id
is absent `delete` fails with `NotFound`. -/
theorem delete_removes_exactly (s s₀ : TodoStore) (id : Nat)
    (hmem : id ∈ s.map Todo.id) (habs : id ∉ s₀.map Todo.id) :
    Repo.delete s id = Except.ok (s.filter fun u => u.id != id) ∧
    Repo.find (s.filter fun u => u.id != id) id =
      Except.error RepositoryError.NotFound ∧
    (∀ j, j ≠ id →
      Repo.find (s.filter fun u => u.id != id) j = Repo.find s j) ∧
    Repo.delete s₀ id = Except.error RepositoryError.NotFound := by
  obtain ⟨t, ht, htid⟩ := List.mem_map.mp hmem
  have hsome : (s.find? (fun u => u.id == id)).isSome := by
    rw [List.find?_isSome]
    exact ⟨t, ht, by simp [htid]⟩
  obtain ⟨t0, ht0⟩ := Option.isSome_iff_exists.mp hsome
  have hnone : s₀.find? (fun u => u.id == id) = none := by
    rw [List.find?_eq_none]
    intro x hx hxe
    exact habs (List.mem_map.mpr ⟨x, hx, by simpa using hxe⟩)
  refine ⟨?_, ?_, ?_, ?_⟩
  · unfold Repo.delete Repo.find
    rw [ht0]
  · unfold Repo.find
    have hf : (s.filter fun u => u.id != id).find? (fun u => u.id == id) = none := by
      rw [List.find?_eq_none]
      intro x hx
      have hkept := (List.mem_filter.mp hx).2
      simpa using hkept
    rw [hf]
  · intro j hj
    unfold Repo.find
    rw [find?_filter_of_imp]
    intro u hu
    have huj : u.id = j := by simpa using hu
    simp [huj]
    omega
  · unfold Repo.delete Repo.find
    rw [hnone]

theorem delete_removes_exactly_witness :
    1 ∈ ([Todo.mk 1 "a", Todo.mk 2 "b"] : TodoStore).map Todo.id ∧
    1 ∉ ([Todo.mk 2 "b"] : TodoStore).map Todo.id ∧
    Repo.delete [Todo.mk 1 "a", Todo.mk 2 "b"] 1 = Except.ok [Todo.mk 2 "b"] ∧
    Repo.delete [Todo.mk 2 "b"] 1 = Except.error RepositoryError.NotFound := by
  refine ⟨by decide, by decide, ?_, ?_⟩
  · exact (delete_removes_exactly [Todo.mk 1 "a", Todo.mk 2 "b"] [Todo.mk 2 "b"] 1
      (by decide) (by decide)).1
  · exact (delete_removes_exactly [Todo.mk 1 "a", Todo.mk 2 "b"] [Todo.mk 2 "b"] 1
      (by decide) (by decide)).2.2.2

theorem createN_length (s : TodoStore) (texts : List String) :
    (createN s texts).length = s.length + texts.length := by
  induction texts generalizing s with
  | nil => simp [createN]
  | cons txt rest ih =>
    simp only [createN]
    rw [ih]
    simp [Repo.create]
    omega

theorem create_preserves_nodup (s : TodoStore) (c : CreateTodo)
    (h : (s.map Todo.id).Nodup) : ((Repo.create s c).1.map Todo.id).Nodup := by
  have hfresh : maxId s + 1 ∉ s.map Todo.id := by
    intro hmem
    obtain ⟨t, ht, htid⟩ := List.mem_map.mp hmem
    have hle := le_maxId_of_mem ht
    omega
  simp only [Repo.create, List.map_append, List.map_cons, List.map_nil]
  rw [List.nodup_append]
  refine ⟨h, List.nodup_singleton _, ?_⟩
  intro a ha hb
  rw [List.mem_singleton] at hb
  exact hfresh (hb ▸ ha)

theorem createN_nodup (s : TodoStore) (texts : List String)
    (h : (s.map Todo.id).Nodup) : ((createN s texts).map Todo.id).Nodup := by
  induction texts generalizing s with
  | nil => simpa [createN] using h
  | cons txt rest ih =>
    simp only [createN]
    exact ih _ (create_preserves_nodup s ⟨txt⟩ h)

/-- C7: `all` never fails (it is a total function): on the empty collection
it returns the empty sequence, and after N creates with no intervening
deletes it returns exactly N todos whose ids are pairwise distinct. -/
theorem all_snapshot_after_creates (texts : List String) :
    Repo.all ([] : TodoStore) = [] ∧
    (Repo.all (createN [] texts)).length = texts.length ∧
    ((Repo.all (createN [] texts)).map Todo.id).Nodup := by
  refine ⟨rfl, ?_, ?_⟩
  · simpa using createN_length [] texts
  · exact createN_nodup [] texts (by simp)

/-- C8: a create or update request whose input fails validation makes no
mutating repository call: the stored collection is exactly the same after
the request as before it. -/
theorem invalid_input_no_mutation (s : TodoStore) (input : CreateTodo)
    (id : Nat) (upd : UpdateTodo)
    (hc : validateText input.text ≠ []) (hu : validateUpdate upd ≠ []) :
    (create_todo s input).1 = s ∧ (update_todo s id upd).1 = s := by
  constructor
  · have he : (validateText input.text).isEmpty = false := by
      cases hv : validateText input.text with
      | nil => exact absurd hv hc
      | cons a l => rfl
    simp [create_todo, he]
  · have he : (validateUpdate upd).isEmpty = false := by
      cases hv : validateUpdate upd with
      | nil => exact absurd hv hu
      | cons a l => rfl
    simp [update_todo, he]

theorem invalid_input_no_mutation_witness :
    validateText "" ≠ [] ∧ validateUpdate ⟨1, some ""⟩ ≠ [] ∧
    (create_todo [Todo.mk 1 "x"] ⟨""⟩).1 = [Todo.mk 1 "x"] ∧
    (update_todo [Todo.mk 1 "x"] 1 ⟨1, some ""⟩).1 = [Todo.mk 1 "x"] :=
  ⟨by decide, by decide,
   (invalid_input_no_mutation [Todo.mk 1 "x"] ⟨""⟩ 1 ⟨1, some ""⟩
     (by decide) (by decide)).1,
   (invalid_input_no_mutation [Todo.mk 1 "x"] ⟨""⟩ 1 ⟨1, some ""⟩
     (by decide) (by decide)).2⟩

/-- C9: for every repository state, `GET /` answers 200 with the exact body
`Hello, world!` and performs no repository interaction: the store passes
through unchanged (`root` does not even receive the repository extension). -/
theorem root_hello_world (s : TodoStore) :
    handleRoot s = (s, ⟨200, ResponseBody.text "Hello, world!"⟩) := rfl

/-- C10: `main` builds its bind address from the octets 127.0.0.1 and port
3000, a loopback address, so the listener is bound exactly to
127.0.0.1:3000. -/
theorem main_binds_loopback_3000 :
    mainBindAddr.isLoopback = true ∧
    mainBindAddr.ip = [127, 0, 0, 1] ∧ mainBindAddr.port = 3000 :=
  ⟨rfl, rfl, rfl⟩

end TodoApp
